import Mathlib

/-!
Shallow embedding of `src/price-service.py` (Pythia price-oracle chatbot).

The program is a conversational front-end around a price pipeline:
  get_price_feeds  (HermesClient)  : load the feed catalog over HTTP;
  process_tickers  (PriceService)  : resolve ticker strings to feeds;
  get_latest_prices (HermesClient) : fetch raw price points over HTTP;
  fetch_prices     (PriceService)  : orchestrate resolution, fetch and
                                     normalization into PriceData records;
  analyze_message  (PriceService)  : intent classification via a language
                                     model whose reply is passed to eval;
  handle_message   (PriceService)  : top-level per-message handler.

Network and classifier I/O are modelled as explicit oracle arguments;
Python exceptions are modelled with `Except` over an error type whose
constructors carry the error taxonomy of the specification, each mapped
from the concrete Python exception the source raises.
-/

/-- Error taxonomy. Each constructor models the concrete Python exception
raised by the source at the corresponding place:
`timeout` = requests.exceptions.Timeout, `connectionFailure` =
requests.exceptions.ConnectionError, `httpError` =
requests.exceptions.HTTPError from raise_for_status, `malformedResponse` =
ValueError "Unexpected API response format", `descriptionLookupFailure` =
StopIteration from an exhausted next(), `keyError` = KeyError from a
missing dict key, `classifierFailure` = any exception raised inside
analyze_message (OpenAI call or eval of the reply), `catalogUnavailable` =
a requests exception during get_price_feeds. -/
inductive PyError where
  | timeout
  | connectionFailure
  | httpError (status : Nat)
  | malformedResponse
  | descriptionLookupFailure
  | keyError
  | classifierFailure
  | catalogUnavailable
  deriving DecidableEq, Repr

/-- A catalog entry as returned by the feed-catalog endpoint
(`/v2/price_feeds`). The JSON object has a top-level `id`, and an
`attributes` object with `description` and an optional `base` (the ticker
symbol). `none` models a JSON object lacking that key, so that the
KeyError behaviour of the source on incomplete entries is representable. -/
structure CatalogEntry where
  id : Option String
  description : Option String
  base : Option String
  deriving DecidableEq, Repr

/-- Data class `PriceFeed` of the source: id and description. -/
structure PriceFeed where
  id : String
  description : String
  deriving DecidableEq, Repr

/-- One element of the `parsed` collection of the latest-price response:
`price["id"]`, `price["price"]["price"]` (mantissa),
`price["price"]["conf"]` (confidence mantissa), `price["price"]["expo"]`
(exponent) and `price["price"]["publish_time"]` (Unix seconds; Pyth
publish times are non-negative, modelled as Nat). -/
structure ParsedPrice where
  id : String
  price : Int
  conf : Int
  expo : Int
  publish_time : Nat
  deriving DecidableEq, Repr

/-- Data class `PriceData` of the source. The source computes `price` and
`confidence_interval` in Python binary64 floating point
(`float(m) * 10 ** float(e)`); the embedding records the exact scaled
value as a rational. No theorem below depends on these two fields. -/
structure PriceData where
  id : String
  price : ℚ
  confidence_interval : ℚ
  description : String
  time : String
  deriving DecidableEq, Repr

/-- Outcome of the HTTP GET performed by get_price_feeds. `failure`
models any requests exception raised by the call itself; `response`
carries the status code and the already-JSON-decoded body. -/
inductive CatalogNet where
  | failure
  | response (status : Nat) (entries : List CatalogEntry)

/-- Body of a latest-price response: either not a dict with a `parsed`
key, or a well-formed `parsed` collection. -/
inductive PriceBody where
  | malformed
  | wellFormed (parsed : List ParsedPrice)

/-- Outcome of the HTTP GET performed by get_latest_prices, as a function
of the feed ids requested and the timeout parameter passed to the call. -/
inductive PriceNet where
  | timeout
  | connectionError
  | response (status : Nat) (body : PriceBody)

/-- requests' Response.raise_for_status raises HTTPError exactly for
4xx and 5xx status codes. -/
def raiseForStatus (status : Nat) : Bool :=
  decide (400 ≤ status) && decide (status < 600)

/-- HermesClient.get_price_feeds: a GET with no timeout parameter and no
validation of the decoded body; raise_for_status, then return
response.json() as is. -/
def get_price_feeds (net : CatalogNet) : Except PyError (List CatalogEntry) :=
  match net with
  | .failure => .error .catalogUnavailable
  | .response status entries =>
      if raiseForStatus status then .error .catalogUnavailable
      else .ok entries

/-- HermesClient.get_latest_prices: one GET with `timeout=30`,
raise_for_status, then the body must be a dict containing `parsed`
(else ValueError). Every except branch of the source logs and re-raises,
so each failure propagates as the corresponding error. The source returns
the whole decoded dict; its only consumer reads `["parsed"]`, modelled
here by returning the parsed collection directly. -/
def get_latest_prices (net : List String → Nat → PriceNet) (feed_ids : List String) :
    Except PyError (List ParsedPrice) :=
  match net feed_ids 30 with
  | .timeout => .error .timeout
  | .connectionError => .error .connectionFailure
  | .response status body =>
      if raiseForStatus status then .error (.httpError status)
      else
        match body with
        | .malformed => .error .malformedResponse
        | .wellFormed parsed => .ok parsed

/-- The filter of the list comprehension in process_tickers:
`"base" in item["attributes"] and item["attributes"]["base"] == ticker`
(exact, case-sensitive string comparison). -/
def ticker_matches (ticker : String) (item : CatalogEntry) : Bool :=
  match item.base with
  | some b => b == ticker
  | none => false

/-- Construction of one PriceFeed in process_tickers:
`PriceFeed(id=item["id"], description=item["attributes"]["description"])`;
a missing key raises KeyError. -/
def mkPriceFeed (item : CatalogEntry) : Except PyError PriceFeed :=
  match item.id with
  | none => .error .keyError
  | some i =>
      match item.description with
      | none => .error .keyError
      | some d => .ok ⟨i, d⟩

/-- Evaluation of a Python list comprehension whose element expression
may raise: elements are produced left to right and an exception at any
element aborts the whole list. -/
def comprehension (f : α → Except PyError β) : List α → Except PyError (List β)
  | [] => .ok []
  | a :: rest => do
      let b ← f a
      let bs ← comprehension f rest
      pure (b :: bs)

/-- The per-ticker list comprehension of process_tickers. -/
def feeds_for_ticker (entries : List CatalogEntry) (ticker : String) :
    Except PyError (List PriceFeed) :=
  comprehension mkPriceFeed (entries.filter (ticker_matches ticker))

/-- The `for ticker in tickers` loop of process_tickers, accumulating
with list.extend. -/
def process_tickers_loop (entries : List CatalogEntry) (tickers : List String)
    (acc : List PriceFeed) : Except PyError (List PriceFeed) :=
  match tickers with
  | [] => .ok acc
  | t :: rest => do
      let feeds ← feeds_for_ticker entries t
      process_tickers_loop entries rest (acc ++ feeds)

/-- PriceService.process_tickers: early return [] on an empty ticker
list, otherwise the accumulation loop. -/
def process_tickers (entries : List CatalogEntry) (tickers : List String) :
    Except PyError (List PriceFeed) :=
  if tickers.isEmpty then .ok []
  else process_tickers_loop entries tickers []

/-!
Time formatting. The source converts `publish_time` with
`datetime.fromtimestamp(t, tz=pytz.UTC)
   .astimezone(pytz.timezone("America/New_York"))
   .strftime("%B %d, %Y %I:%M %p %Z")`.
The Gregorian civil-date computation below is the standard days-to-civil
algorithm; the America/New_York conversion models the tz database rule in
effect since 2007 (EST = UTC-5, EDT = UTC-4; daylight saving from the
second Sunday of March 02:00 local to the first Sunday of November 02:00
local, i.e. the UTC instants 07:00 of the second Sunday of March and
06:00 of the first Sunday of November). Historic pre-2007 transitions of
the tz database are not modelled; publish times are contemporary.
-/

/-- Days-of-era component of the days-to-civil computation: day index
within a 400-year Gregorian era, for `z` days since 1970-01-01. -/
def doeOf (z : Nat) : Nat := (z + 719468) % 146097

/-- Era component of the days-to-civil computation. -/
def eraOf (z : Nat) : Nat := (z + 719468) / 146097

/-- Year-of-era component of the days-to-civil computation. -/
def yoeOf (z : Nat) : Nat :=
  (doeOf z - doeOf z / 1460 + doeOf z / 36524 - doeOf z / 146096) / 365

/-- Day-of-year (March-based year) component. -/
def doyOf (z : Nat) : Nat :=
  doeOf z - (365 * yoeOf z + yoeOf z / 4 - yoeOf z / 100)

/-- March-based month index component. -/
def mpOf (z : Nat) : Nat := (5 * doyOf z + 2) / 153

/-- Civil month (1..12) of day `z` since 1970-01-01. -/
def monthOf (z : Nat) : Nat :=
  if mpOf z < 10 then mpOf z + 3 else mpOf z - 9

/-- Civil day of month of day `z` since 1970-01-01. -/
def dayOf (z : Nat) : Nat := doyOf z - (153 * mpOf z + 2) / 5 + 1

/-- Civil year of day `z` since 1970-01-01. -/
def yearOf (z : Nat) : Nat :=
  yoeOf z + 400 * eraOf z + (if monthOf z ≤ 2 then 1 else 0)

/-- Inverse direction: days since 1970-01-01 of a civil date at or after
1970 (used only for the March and November DST transition dates). -/
def daysFromCivil (y m d : Nat) : Nat :=
  (if m ≤ 2 then y - 1 else y) / 400 * 146097
    + ((if m ≤ 2 then y - 1 else y) % 400 * 365
        + (if m ≤ 2 then y - 1 else y) % 400 / 4
        - (if m ≤ 2 then y - 1 else y) % 400 / 100
        + (153 * (if 2 < m then m - 3 else m + 9) + 2) / 5 + d - 1)
    - 719468

/-- Day of week of day `z` since 1970-01-01, with 0 = Sunday
(1970-01-01 was a Thursday). -/
def dayOfWeek (z : Nat) : Nat := (z + 4) % 7

/-- Offset in days from day `z` to the first Sunday at or after `z`. -/
def firstSundayOffset (z : Nat) : Nat := (7 - dayOfWeek z) % 7

/-- Day number of the second Sunday of March of year `y`. -/
def secondSundayMarch (y : Nat) : Nat :=
  daysFromCivil y 3 1 + firstSundayOffset (daysFromCivil y 3 1) + 7

/-- Day number of the first Sunday of November of year `y`. -/
def firstSundayNov (y : Nat) : Nat :=
  daysFromCivil y 11 1 + firstSundayOffset (daysFromCivil y 11 1)

/-- UTC instant at which daylight saving starts in year `y`
(second Sunday of March, 02:00 EST = 07:00 UTC). -/
def dstStart (y : Nat) : Nat := secondSundayMarch y * 86400 + 7 * 3600

/-- UTC instant at which daylight saving ends in year `y`
(first Sunday of November, 02:00 EDT = 06:00 UTC). -/
def dstEnd (y : Nat) : Nat := firstSundayNov y * 86400 + 6 * 3600

/-- Civil year of instant `t` in UTC. -/
def utcYear (t : Nat) : Nat := yearOf (t / 86400)

/-- Whether America/New_York is on daylight saving time at UTC instant
`t`, per the post-2007 United States rule. -/
def isDSTEastern (t : Nat) : Bool :=
  decide (dstStart (utcYear t) ≤ t) && decide (t < dstEnd (utcYear t))

/-- Seconds west of UTC of America/New_York at instant `t`. -/
def eastern_offset (t : Nat) : Nat :=
  if isDSTEastern t then 4 * 3600 else 5 * 3600

/-- Local civil clock of America/New_York at instant `t`, as seconds
since the epoch of the local wall clock. -/
def eastern_local (t : Nat) : Nat := t - eastern_offset t

/-- Local civil day number at instant `t`. -/
def eastern_days (t : Nat) : Nat := eastern_local t / 86400

/-- Local second within the day at instant `t`. -/
def eastern_tod (t : Nat) : Nat := eastern_local t % 86400

/-- Local hour (0..23) at instant `t`. -/
def eastern_hour (t : Nat) : Nat := eastern_tod t / 3600

/-- Local minute (0..59) at instant `t`. -/
def eastern_minute (t : Nat) : Nat := eastern_tod t % 3600 / 60

/-- strftime %I: hour on the 12-hour clock, 01..12. -/
def eastern_hour12 (t : Nat) : Nat :=
  if eastern_hour t % 12 = 0 then 12 else eastern_hour t % 12

/-- strftime %p. -/
def eastern_meridiem (t : Nat) : String :=
  if eastern_hour t < 12 then "AM" else "PM"

/-- strftime %Z for America/New_York. -/
def eastern_abbr (t : Nat) : String :=
  if isDSTEastern t then "EDT" else "EST"

/-- strftime %B: full month name. -/
def monthName : Nat → String
  | 1 => "January"
  | 2 => "February"
  | 3 => "March"
  | 4 => "April"
  | 5 => "May"
  | 6 => "June"
  | 7 => "July"
  | 8 => "August"
  | 9 => "September"
  | 10 => "October"
  | 11 => "November"
  | 12 => "December"
  | _ => ""

/-- Zero padding to two digits, as in strftime %d, %I and %M. -/
def pad2 (n : Nat) : String :=
  if n < 10 then "0" ++ Nat.repr n else Nat.repr n

/-- The full display-time computation of the source:
fromtimestamp(t, UTC) → astimezone(America/New_York) →
strftime("%B %d, %Y %I:%M %p %Z"). -/
def strftime_eastern (t : Nat) : String :=
  monthName (monthOf (eastern_days t)) ++ " " ++ pad2 (dayOf (eastern_days t))
    ++ ", " ++ Nat.repr (yearOf (eastern_days t))
    ++ " " ++ pad2 (eastern_hour12 t) ++ ":" ++ pad2 (eastern_minute t)
    ++ " " ++ eastern_meridiem t ++ " " ++ eastern_abbr t

/-!
Normalization (the list comprehension of fetch_prices) and the
conversation layer.
-/

/-- The description lookup of the comprehension in fetch_prices:
`next(feed.description for feed in price_feeds if feed.id == price["id"])`.
next() on an exhausted generator raises StopIteration, which no handler in
fetch_prices catches; the specification names this condition
DescriptionLookupFailure. -/
def lookupDescription (price_feeds : List PriceFeed) (pid : String) :
    Except PyError String :=
  match price_feeds.find? (fun feed => feed.id == pid) with
  | some feed => .ok feed.description
  | none => .error .descriptionLookupFailure

/-- Construction of one PriceData record in fetch_prices. The price and
confidence fields carry the exact scaled value `mantissa * 10 ^ expo`
(the source computes them in binary64 floating point, see PriceData). -/
def mkPriceData (price_feeds : List PriceFeed) (p : ParsedPrice) :
    Except PyError PriceData := do
  let desc ← lookupDescription price_feeds p.id
  pure { id := p.id
         price := (p.price : ℚ) * 10 ^ p.expo
         confidence_interval := (p.conf : ℚ) * 10 ^ p.expo
         description := desc
         time := strftime_eastern p.publish_time }

/-- The whole list comprehension of fetch_prices over
`response_data["parsed"]`: an exception at any element discards the whole
list. -/
def normalizeAll (price_feeds : List PriceFeed) (parsed : List ParsedPrice) :
    Except PyError (List PriceData) :=
  comprehension (mkPriceData price_feeds) parsed

/-- Log events of PriceService.fetch_prices. Only the logger.warning on
empty resolution is modelled; the logger.error calls on re-raised
exceptions carry no behaviour any claim depends on. -/
inductive LogEvent where
  | noFeedsWarning (tickers : List String)
  deriving DecidableEq, Repr

/-- PriceService.fetch_prices: resolve tickers; on empty resolution log a
warning and return []; otherwise fetch the latest prices for the resolved
feed ids and normalize. The except clause of the source only logs and
re-raises, so every failure propagates. -/
def fetch_prices (entries : List CatalogEntry) (net : List String → Nat → PriceNet)
    (tickers : List String) : Except PyError (List PriceData) × List LogEvent :=
  match process_tickers entries tickers with
  | .error e => (.error e, [])
  | .ok price_feeds =>
      if price_feeds.isEmpty then (.ok [], [.noFeedsWarning tickers])
      else
        match get_latest_prices net (price_feeds.map (fun feed => feed.id)) with
        | .error e => (.error e, [])
        | .ok parsed =>
            match normalizeAll price_feeds parsed with
            | .error e => (.error e, [])
            | .ok records => (.ok records, [])

/-- A Python value produced by eval of the classifier reply: either a
dict of the shape the prompt requests, or any other value (eval accepts
every well-formed Python expression, whatever it denotes). -/
inductive PyValue where
  | dict (is_price_request : Bool) (tickers : List String) (chat_response : String)
  | otherValue
  deriving DecidableEq, Repr

/-- Outcome of `eval(response.choices[0].message.content)` together with
the API call around it: `raises` models any exception (API failure, a
reply that is not a well-formed Python expression, or one whose
evaluation raises); `value v` models eval returning the Python value `v`,
conforming to the expected schema or not. -/
inductive EvalOutcome where
  | raises
  | value (v : PyValue)

/-- PriceService.analyze_message: the reply of the model is passed to
eval and whatever value results is returned with no schema validation;
the except clause logs and re-raises, so an exception propagates to the
caller. -/
def analyze_message (classifier : EvalOutcome) : Except PyError PyValue :=
  match classifier with
  | .raises => .error .classifierFailure
  | .value v => .ok v

/-- Result of PriceService.handle_message: a list of PriceData or a
string. -/
inductive HandleResult where
  | prices (records : List PriceData)
  | text (s : String)
  deriving DecidableEq, Repr

/-- The message of str(e) for each modelled exception, as interpolated
into the f-string of handle_message. The exact text is immaterial to
every claim; what matters is that the handler returns a string. -/
def errStr : PyError → String
  | .timeout => "Request timed out"
  | .connectionFailure => "Connection error"
  | .httpError status => "HTTP error " ++ Nat.repr status
  | .malformedResponse => "Unexpected API response format"
  | .descriptionLookupFailure => "StopIteration"
  | .keyError => "KeyError"
  | .classifierFailure => "Error processing message with GPT"
  | .catalogUnavailable => "Catalog unavailable"

/-- The try block of PriceService.handle_message: analyze the message;
on a price request fetch prices, otherwise return the chat response.
Accessing `analysis["is_price_request"]` on a value that is not a dict
with that key raises (TypeError or KeyError; modelled as keyError). -/
def handle_message_try (entries : List CatalogEntry)
    (net : List String → Nat → PriceNet) (classifier : EvalOutcome) :
    Except PyError HandleResult := do
  let analysis ← analyze_message classifier
  match analysis with
  | .dict is_price tickers chat =>
      if is_price then
        match (fetch_prices entries net tickers).1 with
        | .ok records => pure (.prices records)
        | .error e => .error e
      else pure (.text chat)
  | .otherValue => .error .keyError

/-- PriceService.handle_message: the try block wrapped in
`except Exception as e: return f"An error occurred: ..."`. -/
def handle_message (entries : List CatalogEntry)
    (net : List String → Nat → PriceNet) (classifier : EvalOutcome) :
    HandleResult :=
  match handle_message_try entries net classifier with
  | .ok r => r
  | .error e => .text ("An error occurred: " ++ errStr e)

/-!
Specification-side definitions and helper lemmas.
-/

/-- Whether a catalog entry carries both required fields (`id` and
`attributes.description`). -/
def entry_complete (e : CatalogEntry) : Bool :=
  e.id.isSome && e.description.isSome

/-- Modelled from the spec (TickerResolver / FeedCatalog.findBySymbol),
for comparison with `process_tickers`: a descriptor matches a ticker when
its baseSymbol exactly equals the ticker; entries lacking `base` are
excluded from matching. -/
def spec_match (ticker : String) (e : CatalogEntry) : Option PriceFeed :=
  match e.base, e.id, e.description with
  | some b, some i, some d => if b == ticker then some ⟨i, d⟩ else none
  | _, _, _ => none

/-- Modelled from the spec (TickerResolver.resolve), for comparison with
`process_tickers`: for each ticker in input order, all matching
descriptors are appended, without deduplication. -/
def resolve_spec (entries : List CatalogEntry) : List String → List PriceFeed
  | [] => []
  | t :: rest => entries.filterMap (spec_match t) ++ resolve_spec entries rest

theorem feeds_for_ticker_complete (entries : List CatalogEntry) (t : String)
    (h : ∀ e ∈ entries, entry_complete e) :
    feeds_for_ticker entries t = .ok (entries.filterMap (spec_match t)) := by
  induction entries with
  | nil => rfl
  | cons e rest ih =>
      have hrest : ∀ x ∈ rest, entry_complete x := fun x hx => h x (List.mem_cons_of_mem _ hx)
      have ihr := ih hrest
      unfold feeds_for_ticker at ihr ⊢
      rcases hb : e.base with _ | b
      · have hm : ticker_matches t e = false := by simp [ticker_matches, hb]
        have hs : spec_match t e = none := by simp [spec_match, hb]
        simp [List.filter_cons, hm, hs, ihr]
      · have hc := h e (List.mem_cons_self e rest)
        rcases hi : e.id with _ | i
        · simp [entry_complete, hi] at hc
        rcases hd : e.description with _ | d
        · simp [entry_complete, hd] at hc
        by_cases hbt : b == t
        · have hm : ticker_matches t e = true := by simp [ticker_matches, hb, hbt]
          have hs : spec_match t e = some ⟨i, d⟩ := by simp [spec_match, hb, hi, hd, hbt]
          have hmk : mkPriceFeed e = .ok ⟨i, d⟩ := by simp [mkPriceFeed, hi, hd]
          simp [List.filter_cons, hm, hs, comprehension, hmk, ihr]
          rfl
        · have hm : ticker_matches t e = false := by
            simp [ticker_matches, hb]
            simpa using hbt
          have hs : spec_match t e = none := by
            simp [spec_match, hb, hi, hd]
            intro hcontra
            simp [hcontra] at hbt
          simp [List.filter_cons, hm, hs, ihr]

theorem process_tickers_loop_complete (entries : List CatalogEntry)
    (tickers : List String) (acc : List PriceFeed)
    (h : ∀ e ∈ entries, entry_complete e) :
    process_tickers_loop entries tickers acc
      = .ok (acc ++ resolve_spec entries tickers) := by
  induction tickers generalizing acc with
  | nil => simp [process_tickers_loop, resolve_spec]
  | cons t rest ih =>
      unfold process_tickers_loop
      rw [feeds_for_ticker_complete entries t h]
      show process_tickers_loop entries rest _ = _
      rw [ih]
      simp [resolve_spec]

theorem doeOf_lt (z : Nat) : doeOf z < 146097 := by
  unfold doeOf
  omega

theorem doyOf_le (z : Nat) : doyOf z ≤ 465 := by
  have h := doeOf_lt z
  unfold doyOf yoeOf
  omega

theorem mpOf_le (z : Nat) : mpOf z ≤ 15 := by
  have h := doyOf_le z
  unfold mpOf
  omega

theorem monthOf_bounds (z : Nat) : 1 ≤ monthOf z ∧ monthOf z ≤ 12 := by
  have h := mpOf_le z
  unfold monthOf
  split <;> omega

theorem eastern_hour_lt (t : Nat) : eastern_hour t < 24 := by
  unfold eastern_hour eastern_tod
  omega

theorem eastern_hour12_bounds (t : Nat) :
    1 ≤ eastern_hour12 t ∧ eastern_hour12 t ≤ 12 := by
  unfold eastern_hour12
  split <;> omega

theorem eastern_minute_le (t : Nat) : eastern_minute t ≤ 59 := by
  unfold eastern_minute eastern_tod
  omega

theorem monthName_ne_empty (m : Nat) (h1 : 1 ≤ m) (h2 : m ≤ 12) :
    monthName m ≠ "" := by
  interval_cases m <;> decide

theorem comprehension_cons_error {α β : Type} (f : α → Except PyError β)
    (a : α) (l : List α) (e : PyError) (hf : f a = .error e) :
    comprehension f (a :: l) = .error e := by
  unfold comprehension
  rw [hf]
  rfl

theorem comprehension_cons_ok {α β : Type} (f : α → Except PyError β)
    (a : α) (l : List α) (b : β) (hf : f a = .ok b) :
    comprehension f (a :: l)
      = Except.map (fun bs => b :: bs) (comprehension f l) := by
  have h1 : comprehension f (a :: l)
      = bind (f a) (fun c => bind (comprehension f l)
          (fun bs => pure (c :: bs))) := rfl
  rw [h1, hf]
  cases hc : comprehension f l <;> rfl

/-- C3: if some raw price point's feedId has no descriptor with an equal
id in the supplied feed set, the whole normalization call fails with
DescriptionLookupFailure (the StopIteration of the exhausted next()) and
produces zero output records: the result is an error, never a partial
list or a record with a blank description. -/
theorem normalize_missing_descriptor_fails (price_feeds : List PriceFeed)
    (parsed : List ParsedPrice)
    (h : ∃ p ∈ parsed, ∀ f ∈ price_feeds, f.id ≠ p.id) :
    normalizeAll price_feeds parsed = .error .descriptionLookupFailure := by
  induction parsed with
  | nil => simp at h
  | cons p rest ih =>
      unfold normalizeAll at ih ⊢
      rcases hfind : price_feeds.find? (fun feed => feed.id == p.id) with _ | f
      · have hmk : mkPriceData price_feeds p = .error .descriptionLookupFailure := by
          unfold mkPriceData lookupDescription
          rw [hfind]
          rfl
        rw [comprehension_cons_error _ _ _ _ hmk]
      · have hfmem := List.mem_of_find?_eq_some hfind
        have hfid : f.id = p.id := by simpa using List.find?_some hfind
        obtain ⟨q, hq, hqprop⟩ := h
        rcases List.mem_cons.mp hq with rfl | hqrest
        · exact absurd hfid (hqprop f hfmem)
        · have hmk : mkPriceData price_feeds p
              = .ok { id := p.id
                      price := (p.price : ℚ) * 10 ^ p.expo
                      confidence_interval := (p.conf : ℚ) * 10 ^ p.expo
                      description := f.description
                      time := strftime_eastern p.publish_time } := by
            unfold mkPriceData lookupDescription
            rw [hfind]
            rfl
          rw [comprehension_cons_ok _ _ _ _ hmk, ih ⟨q, hqrest, hqprop⟩]
          rfl

theorem normalize_missing_descriptor_fails_witness :
    normalizeAll [⟨"A", "descA"⟩] [⟨"B", 1, 1, 0, 1700000000⟩]
      = .error .descriptionLookupFailure :=
  normalize_missing_descriptor_fails [⟨"A", "descA"⟩] [⟨"B", 1, 1, 0, 1700000000⟩]
    ⟨⟨"B", 1, 1, 0, 1700000000⟩, by decide, by decide⟩

/-- C5: for every list of tickers and every catalog whose entries all
carry their required fields, resolution returns, per ticker in input
order, all catalog descriptors whose base symbol exactly (case
sensitively, by string equality) equals that ticker, appending all
matches without deduplication, and excluding entries that lack a base
symbol — exactly the spec-side resolver `resolve_spec`. -/
theorem process_tickers_eq_resolve_spec (entries : List CatalogEntry)
    (tickers : List String) (h : ∀ e ∈ entries, entry_complete e) :
    process_tickers entries tickers = .ok (resolve_spec entries tickers) := by
  unfold process_tickers
  split
  · rename_i ht
    rw [List.isEmpty_iff] at ht
    subst ht
    simp [resolve_spec]
  · rw [process_tickers_loop_complete entries tickers [] h]
    simp

theorem process_tickers_eq_resolve_spec_witness :
    process_tickers
      [⟨some "f1", some "BTC A", some "BTC"⟩,
       ⟨some "f2", some "ETH A", some "ETH"⟩,
       ⟨some "f3", some "BTC B", some "BTC"⟩,
       ⟨some "f4", some "no base", none⟩,
       ⟨some "f5", some "lower", some "btc"⟩]
      ["BTC", "ETH"]
      = .ok [⟨"f1", "BTC A"⟩, ⟨"f3", "BTC B"⟩, ⟨"f2", "ETH A"⟩] := by
  rw [process_tickers_eq_resolve_spec _ _ (by decide)]
  rfl

/-- C6: the latest-price fetch is a single request carrying the bounded
30-second timeout; a timeout of that request propagates as the Timeout
error with no partial results, and the result of get_latest_prices
depends only on the outcome of that one request at timeout 30 — no
retry is performed. -/
theorem get_latest_prices_timeout_no_retry (net : List String → Nat → PriceNet)
    (feed_ids : List String) :
    (net feed_ids 30 = .timeout →
        get_latest_prices net feed_ids = .error .timeout)
    ∧ ∀ net2, net feed_ids 30 = net2 feed_ids 30 →
        get_latest_prices net feed_ids = get_latest_prices net2 feed_ids := by
  constructor
  · intro h
    unfold get_latest_prices
    rw [h]
  · intro net2 h
    unfold get_latest_prices
    rw [h]

theorem get_latest_prices_timeout_no_retry_witness :
    get_latest_prices (fun _ _ => PriceNet.timeout) ["f1"] = .error .timeout :=
  (get_latest_prices_timeout_no_retry (fun _ _ => PriceNet.timeout) ["f1"]).1 rfl

/-- C8: when ticker resolution yields zero feeds (in particular for the
empty ticker list), fetch_prices returns the empty list as a valid
result together with the logged warning, and its outcome is independent
of the network oracle — no price fetch is performed. -/
theorem fetch_prices_empty_resolution (entries : List CatalogEntry)
    (net net2 : List String → Nat → PriceNet) (tickers : List String)
    (h : process_tickers entries tickers = .ok []) :
    fetch_prices entries net tickers = (.ok [], [.noFeedsWarning tickers])
    ∧ fetch_prices entries net tickers = fetch_prices entries net2 tickers := by
  have key : ∀ n : List String → Nat → PriceNet,
      fetch_prices entries n tickers = (.ok [], [.noFeedsWarning tickers]) := by
    intro n
    unfold fetch_prices
    rw [h]
    rfl
  exact ⟨key net, (key net).trans (key net2).symm⟩

theorem fetch_prices_empty_resolution_witness :
    fetch_prices [⟨some "f1", some "d1", some "BTC"⟩]
        (fun _ _ => PriceNet.timeout) ["DOGE"]
      = (.ok [], [.noFeedsWarning ["DOGE"]])
    ∧ fetch_prices [⟨some "f1", some "d1", some "BTC"⟩]
        (fun _ _ => PriceNet.timeout) ["DOGE"]
      = fetch_prices [⟨some "f1", some "d1", some "BTC"⟩]
          (fun _ _ => PriceNet.connectionError) ["DOGE"] :=
  fetch_prices_empty_resolution [⟨some "f1", some "d1", some "BTC"⟩]
    (fun _ _ => PriceNet.timeout) (fun _ _ => PriceNet.connectionError) ["DOGE"] rfl

/-- C10: when the feed set contains several descriptors with the same id,
the description lookup of normalization deterministically returns the
description of the first descriptor whose id matches, whatever follows it
(including further descriptors with the same id); duplicates never raise
an ambiguity error. -/
theorem lookup_first_match_on_duplicates (xs ys : List PriceFeed)
    (f : PriceFeed) (pid : String) (hf : f.id = pid)
    (hxs : ∀ x ∈ xs, x.id ≠ pid) :
    lookupDescription (xs ++ f :: ys) pid = .ok f.description := by
  induction xs with
  | nil =>
      unfold lookupDescription
      have hp : (f.id == pid) = true := by simp [hf]
      simp [List.find?, hp]
  | cons x rest ih =>
      have hx : (x.id == pid) = false := by
        simpa using hxs x (List.mem_cons_self x rest)
      have ihr := ih fun y hy => hxs y (List.mem_cons_of_mem _ hy)
      unfold lookupDescription at ihr ⊢
      simpa [List.find?, hx] using ihr

theorem lookup_first_match_on_duplicates_witness :
    lookupDescription [⟨"A", "first"⟩, ⟨"A", "second"⟩] "A" = .ok "first" :=
  lookup_first_match_on_duplicates [] [⟨"A", "second"⟩] ⟨"A", "first"⟩ "A" rfl
    (by decide)

/-- C9: every normalized record's display time is the publish Unix time
run through the source's conversion chain (UTC instant, converted to
America/New_York, strftime "%B %d, %Y %I:%M %p %Z"), and that string is
the long human-readable form: full month name (the month component lies
in 1..12, so a real name is printed), zero-padded day, year, zero-padded
12-hour clock value in 1..12 with an AM/PM marker, and the timezone
abbreviation EST or EDT. -/
theorem priceData_time_format (price_feeds : List PriceFeed) (p : ParsedPrice)
    (r : PriceData) (h : mkPriceData price_feeds p = .ok r) :
    r.time = strftime_eastern p.publish_time
    ∧ strftime_eastern p.publish_time
        = monthName (monthOf (eastern_days p.publish_time)) ++ " "
          ++ pad2 (dayOf (eastern_days p.publish_time)) ++ ", "
          ++ Nat.repr (yearOf (eastern_days p.publish_time)) ++ " "
          ++ pad2 (eastern_hour12 p.publish_time) ++ ":"
          ++ pad2 (eastern_minute p.publish_time) ++ " "
          ++ eastern_meridiem p.publish_time ++ " "
          ++ eastern_abbr p.publish_time
    ∧ 1 ≤ monthOf (eastern_days p.publish_time)
    ∧ monthOf (eastern_days p.publish_time) ≤ 12
    ∧ monthName (monthOf (eastern_days p.publish_time)) ≠ ""
    ∧ 1 ≤ eastern_hour12 p.publish_time
    ∧ eastern_hour12 p.publish_time ≤ 12
    ∧ eastern_minute p.publish_time ≤ 59
    ∧ (eastern_meridiem p.publish_time = "AM"
        ∨ eastern_meridiem p.publish_time = "PM")
    ∧ (eastern_abbr p.publish_time = "EST"
        ∨ eastern_abbr p.publish_time = "EDT") := by
  refine ⟨?_, rfl, (monthOf_bounds _).1, (monthOf_bounds _).2,
    monthName_ne_empty _ (monthOf_bounds _).1 (monthOf_bounds _).2,
    (eastern_hour12_bounds _).1, (eastern_hour12_bounds _).2,
    eastern_minute_le _, ?_, ?_⟩
  · cases hl : lookupDescription price_feeds p.id with
    | error e =>
        have : mkPriceData price_feeds p = .error e := by
          unfold mkPriceData
          rw [hl]
          rfl
        rw [this] at h
        exact absurd h (by simp)
    | ok desc =>
        have hok : mkPriceData price_feeds p
            = .ok { id := p.id
                    price := (p.price : ℚ) * 10 ^ p.expo
                    confidence_interval := (p.conf : ℚ) * 10 ^ p.expo
                    description := desc
                    time := strftime_eastern p.publish_time } := by
          unfold mkPriceData
          rw [hl]
          rfl
        rw [hok] at h
        injection h with h2
        rw [← h2]
  · unfold eastern_meridiem
    split
    · exact Or.inl rfl
    · exact Or.inr rfl
  · unfold eastern_abbr
    split
    · exact Or.inr rfl
    · exact Or.inl rfl

theorem priceData_time_format_witness :
    strftime_eastern 1700000000 = "November 14, 2023 05:13 PM EST"
    ∧ ((⟨"X", ((12345 : ℤ) : ℚ) * 10 ^ (0 : ℤ), ((67 : ℤ) : ℚ) * 10 ^ (0 : ℤ),
          "Test Asset", strftime_eastern 1700000000⟩ : PriceData)).time
        = strftime_eastern 1700000000
    ∧ 1 ≤ monthOf (eastern_days 1700000000)
    ∧ monthOf (eastern_days 1700000000) ≤ 12
    ∧ 1 ≤ eastern_hour12 1700000000
    ∧ eastern_hour12 1700000000 ≤ 12
    ∧ (eastern_abbr 1700000000 = "EST" ∨ eastern_abbr 1700000000 = "EDT") := by
  have h := priceData_time_format [⟨"X", "Test Asset"⟩]
    ⟨"X", 12345, 67, 0, 1700000000⟩
    ⟨"X", ((12345 : ℤ) : ℚ) * 10 ^ (0 : ℤ), ((67 : ℤ) : ℚ) * 10 ^ (0 : ℤ),
      "Test Asset", strftime_eastern 1700000000⟩ rfl
  exact ⟨by decide, h.1, h.2.2.1, h.2.2.2.1, h.2.2.2.2.2.1,
    h.2.2.2.2.2.2.1, h.2.2.2.2.2.2.2.2.2⟩

/-- C7: every failure of the classify/resolve/fetch/normalize chain (the
try block `handle_message_try`) is caught at the handler boundary and
converted into the user-facing error string; handle_message is a total
function whose value is always either a list of price records or a
string, never a propagated exception. -/
theorem handle_message_never_raises (entries : List CatalogEntry)
    (net : List String → Nat → PriceNet) (classifier : EvalOutcome) :
    (∀ e, handle_message_try entries net classifier = .error e →
        handle_message entries net classifier
          = .text ("An error occurred: " ++ errStr e))
    ∧ ((∃ records, handle_message entries net classifier = .prices records)
        ∨ (∃ s, handle_message entries net classifier = .text s)) := by
  constructor
  · intro e h
    unfold handle_message
    rw [h]
  · cases hr : handle_message entries net classifier with
    | prices records => exact Or.inl ⟨records, rfl⟩
    | text s => exact Or.inr ⟨s, rfl⟩

theorem handle_message_never_raises_witness :
    handle_message [] (fun _ _ => PriceNet.timeout) .raises
      = .text ("An error occurred: " ++ errStr .classifierFailure) :=
  (handle_message_never_raises [] (fun _ _ => PriceNet.timeout) .raises).1
    .classifierFailure rfl

/-- C2 fails on the code: analyze_message passes the classifier reply to
Python eval (line 170), executing it as code rather than validating it as
structured data, and returns whatever value results with no schema check
(first conjunct: a non-conforming value is returned as a success, with no
ClassifierParseError); when evaluation raises, the except clause of
analyze_message logs and re-raises, so the failure propagates out of the
classifier instead of being recovered there as a non-price request, and
the top-level handler turns it into the generic error string rather than
an apology reply (remaining conjuncts). -/
theorem analyze_message_evals_reply_unchecked :
    analyze_message (.value .otherValue) = .ok .otherValue
    ∧ analyze_message .raises = .error .classifierFailure
    ∧ handle_message [] (fun _ _ => PriceNet.timeout) .raises
        = .text ("An error occurred: " ++ errStr .classifierFailure) :=
  ⟨rfl, rfl, rfl⟩

/-- C4 as stated is false on the code: get_price_feeds performs no
validation of the entries it returns, so a catalog containing an entry
lacking the required description field is accepted at load time. -/
theorem catalog_accepts_incomplete_entry :
    get_price_feeds (.response 200 [⟨some "feedX", none, some "BTC"⟩])
      = .ok [⟨some "feedX", none, some "BTC"⟩] := rfl

/-- C4 amended: catalog load fails with CatalogUnavailable when the
network call errors or when raise_for_status fires on a 4xx or 5xx
status; entries lacking a required field are NOT rejected at load time —
the body is returned as is — and a missing field only raises an error
(KeyError) later, during ticker resolution, when such an entry matches a
queried ticker. -/
theorem catalog_load_amended (status : Nat) (entries : List CatalogEntry) :
    get_price_feeds .failure = .error .catalogUnavailable
    ∧ (400 ≤ status → status < 600 →
        get_price_feeds (.response status entries) = .error .catalogUnavailable)
    ∧ (status < 400 →
        get_price_feeds (.response status entries) = .ok entries)
    ∧ process_tickers [⟨some "feedX", none, some "BTC"⟩] ["BTC"]
        = .error .keyError := by
  refine ⟨rfl, ?_, ?_, rfl⟩
  · intro h1 h2
    have hs : raiseForStatus status = true := by
      unfold raiseForStatus
      simp
      omega
    unfold get_price_feeds
    simp [hs]
  · intro h1
    have hs : raiseForStatus status = false := by
      unfold raiseForStatus
      simp
      omega
    unfold get_price_feeds
    simp [hs]

theorem catalog_load_amended_witness :
    get_price_feeds (.response 404 ([] : List CatalogEntry))
      = .error .catalogUnavailable
    ∧ get_price_feeds (.response 200 [⟨some "f", some "d", none⟩])
      = .ok [⟨some "f", some "d", none⟩] :=
  ⟨(catalog_load_amended 404 []).2.1 (by decide) (by decide),
   (catalog_load_amended 200 [⟨some "f", some "d", none⟩]).2.2.1 (by decide)⟩
